import Mathlib

/-
Verification development for the `zabbix_metrics` Ansible module
(playbook/library/zabbix_metrics.py).

The module is a linear ETL pipeline: it generates working-hour time
windows, resolves metric items for each requested host, retrieves raw
history samples, aggregates min/avg/max per day and in total, classifies
units by display-name patterns, and writes a tabular report.

Shallow embedding conventions used below:
* Python floats are modelled as exact rationals (ℚ).
* The Zabbix API client (an external collaborator) is modelled as an
  environment `ZEnv` of total functions: host lookup, the item table per
  host, and the history table indexed by item id, time range and history
  storage class.
* `pytz` timezone conversion (an external collaborator) is modelled as a
  pair of functions `TZModel`: local (day, minute-of-day) to UTC epoch
  seconds and back.  Local times are minutes of the day (09:00 = 540,
  18:00 = 1080); calendar days are integers (days since an arbitrary
  epoch), so that walking backwards never underflows.
* The spreadsheet writer (an external collaborator) is modelled per its
  contract: it writes the given header and rows at the given path; the
  module-side state it depends on (whether the output path has a
  directory component and whether that directory exists) is passed in as
  booleans, and the outcome records whether the module called
  `os.makedirs` and what table was written.
* Python substring containment `pat in s` is `strContains s pat`.  The
  two `re.search` patterns used by the module are alternations of plain
  literals, so they reduce to substring containment as well.
-/

/-- `KEYS_TEMPLATE` from the source: the fixed list of well-known metric
key substrings. -/
def KEYS_TEMPLATE : List String :=
  ["system.cpu.util",
   "vm.memory.util",
   "perf_counter_en[\"\\PhysicalDisk(0 C:)\\% Idle Time\",60]",
   "net.if.in",
   "net.if.out"]

/-- `DATA_COLUMNS` from the source: the fixed report header. -/
def DATA_COLUMNS : List String :=
  ["Server", "Type", "unit measurements", "Min", "Avg", "Max"]

/-- `bps_to_mbps` from the source: bits per second to megabits per
second. -/
def bps_to_mbps (bps : ℚ) : ℚ := bps / 1000000

/-- Python's substring containment `pat in s`, on the underlying
character lists. -/
def strContains (s pat : String) : Bool := decide (pat.data <:+: s.data)

/-- `re.search(r'Bits (received|sent)', name)` from the source: the
pattern is a literal alternation, i.e. substring containment of
"Bits received" or "Bits sent". -/
def matchesBits (name : String) : Bool :=
  strContains name "Bits received" || strContains name "Bits sent"

/-- `re.search(r'(Disk|CPU|Memory) utilization', name)` from the source:
substring containment of one of the three literal alternatives. -/
def matchesUtil (name : String) : Bool :=
  strContains name "Disk utilization" || strContains name "CPU utilization" ||
    strContains name "Memory utilization"

/-- `float(f"{v:.1f}")` from the source, idealized over exact rationals:
rounding to one decimal place. -/
def round1 (x : ℚ) : ℚ := (round (10 * x) : ℤ) / 10

/-- Python `min(values)` on a non-empty list (the `[]` case is
unreachable at every use site, which is guarded by `len(values) > 1`). -/
def listMin : List ℚ → ℚ
  | [] => 0
  | x :: xs => xs.foldl min x

/-- Python `max(values)` on a non-empty list (the `[]` case is
unreachable at every use site). -/
def listMax : List ℚ → ℚ
  | [] => 0
  | x :: xs => xs.foldl max x

/-- Python `sum(values) / len(values)` from the source. -/
def listAvg (l : List ℚ) : ℚ := l.sum / l.length

/-- One entry of the list returned by `get_timestamp_ekb2timestamp`:
calendar date, and the window bounds as UTC epoch seconds.  The
`readable_utc_start` field of the source is a formatted duplicate of
`time_from` that nothing downstream reads, so it is not modelled. -/
structure Window where
  date : Int
  time_from : Int
  time_till : Int
deriving DecidableEq

/-- Model of a `pytz` timezone: `toUtc d m` is the UTC epoch second of
minute-of-day `m` on local calendar day `d` (what
`localize` + `astimezone(UTC)` + epoch subtraction compute in the
source), and `fromUtc` converts a UTC epoch second back to the local
(day, minute-of-day) pair. -/
structure TZModel where
  toUtc : Int → Nat → Int
  fromUtc : Int → Int × Nat

/-- `get_timestamp_ekb2timestamp` from the source: anchor on today in
the target timezone (shifted back one day when local time is before
09:00), and produce one window per day walking backwards, each from
local 09:00 (minute 540) to local 18:00 (minute 1080) converted to UTC
epoch seconds.  `nowDay`/`nowMin` are the current local day and
minute-of-day. -/
def get_timestamp_ekb2timestamp (tz : TZModel) (nowDay : Int) (nowMin : Nat)
    (days_back : Nat) : List Window :=
  let base_date := if nowMin < 540 then nowDay - 1 else nowDay
  (List.range (days_back + 1)).map (fun i : Nat =>
    { date := base_date - (i : Int),
      time_from := tz.toUtc (base_date - (i : Int)) 540,
      time_till := tz.toUtc (base_date - (i : Int)) 1080 })

/-- An item record as returned by the Zabbix API (`itemid`, `name`,
`key_`), plus its enabled/disabled `status` used by the first
`item.get` filter. -/
structure Item where
  itemid : Nat
  name : String
  key : String
  status : Nat
deriving DecidableEq

/-- One raw history sample: timestamp and value (the source parses the
value with `float`). -/
structure Sample where
  clock : Int
  value : ℚ
deriving DecidableEq

/-- The Zabbix API backend, modelled as total functions: host lookup by
display name (returning `hostid` and `host`), the item table per host
id, and the history table indexed by item id, time range and history
storage class. -/
structure ZEnv where
  hosts : String → Option (Nat × String)
  allItems : Nat → List Item
  history : Nat → Int → Int → Nat → List Sample

/-- `get_host_id` from the source: resolve a host name, raising
(`Except.error`) when no host matches. -/
def get_host_id (env : ZEnv) (host_name : String) : Except String (Nat × String) :=
  match env.hosts host_name with
  | none => Except.error ("Хост '" ++ host_name ++ "' не найден")
  | some p => Except.ok p

/-- `get_item` from the source: `item.get` with a `search` filter on
`key_`, i.e. all items of the host whose key contains the search
string. -/
def get_item (env : ZEnv) (host_id : Nat) (item_key : String) : List Item :=
  (env.allItems host_id).filter (fun it => strContains it.key item_key)

/-- The first `item.get` call of `collect_host_metrics`: all items of
the host with `status` 0 (enabled). -/
def enabledItems (env : ZEnv) (host_id : Nat) : List Item :=
  (env.allItems host_id).filter (fun it => it.status == 0)

/-- The key-matching loop of `collect_host_metrics`: for each item, for
each template key, if the template is a substring of the item's key,
append the item's key.  An item whose key contains several template
substrings is therefore appended once per matching template. -/
def resolvedKeys (all_items : List Item) : List String :=
  all_items.foldl (fun acc item =>
    acc ++ (KEYS_TEMPLATE.filter (fun key => strContains item.key key)).map
      (fun _ => item.key)) []

/-- The item-resolution loop of `collect_host_metrics`: re-query each
collected key and keep the first result when there is one. -/
def resolvedItems (env : ZEnv) (host_id : Nat) (keys : List String) : List Item :=
  keys.filterMap (fun key => (get_item env host_id key).head?)

/-- The history storage class selected by `collect_host_metrics`:
`3 if "net.if." in item['key_'] else 0`. -/
def historyType (key : String) : Nat :=
  if strContains key "net.if." then 3 else 0

/-- One `history.get` call of `collect_host_metrics`: the samples of the
item inside the window, queried with the storage class selected from
the item's key. -/
def dayHistory (env : ZEnv) (it : Item) (w : Window) : List Sample :=
  env.history it.itemid w.time_from w.time_till (historyType it.key)

/-- The per-day value list `[float(h["value"]) for h in history]`. -/
def dayValues (env : ZEnv) (it : Item) (w : Window) : List ℚ :=
  (dayHistory env it w).map (fun h => h.value)

/-- `item['list_of_history_for_total']`: the concatenation, in window
order, of every day's history (the source extends only when the day's
history is non-empty, which concatenation reproduces). -/
def list_of_history_for_total (env : ZEnv) (it : Item) (ws : List Window) :
    List Sample :=
  (ws.map (dayHistory env it)).flatten

/-- The value list of the accumulated total history. -/
def totalValues (env : ZEnv) (it : Item) (ws : List Window) : List ℚ :=
  (list_of_history_for_total env it ws).map (fun h => h.value)

/-- A min/avg/max aggregate as built by `collect_host_metrics`
(`history_count` is the number of samples). -/
structure Agg where
  avg : ℚ
  min : ℚ
  max : ℚ
  history_count : Nat
deriving DecidableEq

/-- The aggregate record the source builds from a value list:
min/avg/max each rounded to one decimal place. -/
def aggOfValues (values : List ℚ) : Agg :=
  { avg := round1 (listAvg values),
    min := round1 (listMin values),
    max := round1 (listMax values),
    history_count := values.length }

/-- A per-day aggregate (`item['list_of_days']` entry): the aggregate
plus its calendar date. -/
structure DayAgg where
  date : Int
  avg : ℚ
  min : ℚ
  max : ℚ
  history_count : Nat
deriving DecidableEq

/-- The per-day aggregation step of `collect_host_metrics`: a day
contributes an entry only when it has more than one sample. -/
def dayAgg (env : ZEnv) (it : Item) (w : Window) : Option DayAgg :=
  let values := dayValues env it w
  if 1 < values.length then
    some { date := w.date,
           avg := round1 (listAvg values),
           min := round1 (listMin values),
           max := round1 (listMax values),
           history_count := values.length }
  else none

/-- `item['list_of_days']`: the per-day aggregates over the window
list. -/
def list_of_days (env : ZEnv) (it : Item) (ws : List Window) : List DayAgg :=
  ws.filterMap (dayAgg env it)

/-- `item['list_of_total']`: a singleton aggregate of all accumulated
samples when there are more than one, else empty. -/
def list_of_total (env : ZEnv) (it : Item) (ws : List Window) : List Agg :=
  let values := totalValues env it ws
  if 1 < values.length then [aggOfValues values] else []

/-- One report row (`[host_vname, name, unit_measurements, min, avg,
max]` in the source). -/
structure Row where
  server : String
  type : String
  unit : String
  min : ℚ
  avg : ℚ
  max : ℚ
deriving DecidableEq

/-- The unit classification of the output loop: the Bits pattern is
checked first, then the utilization pattern, else "count". -/
def unitOf (name : String) : String :=
  if matchesBits name then "Mbps"
  else if matchesUtil name then "%"
  else "count"

/-- The value conversion of the output loop: divide by 1,000,000 exactly
when the name matches the Bits pattern. -/
def convertVal (name : String) (v : ℚ) : ℚ :=
  if matchesBits name then bps_to_mbps v else v

/-- The output loop body of `collect_host_metrics` for one item: emit
one row from the first total aggregate when it exists, else nothing. -/
def itemRows (env : ZEnv) (ws : List Window) (host_vname : String) (it : Item) :
    List Row :=
  match list_of_total env it ws with
  | [] => []
  | total :: _ =>
    [{ server := host_vname,
       type := it.name,
       unit := unitOf it.name,
       min := convertVal it.name total.min,
       avg := convertVal it.name total.avg,
       max := convertVal it.name total.max }]

/-- `collect_host_metrics` from the source: resolve the host, resolve
the item keys, generate the windows, aggregate and emit the rows.  The
source's early `return data` on an empty item list is kept as the
`isEmpty` branch (it returns the still-empty `data`). -/
def collect_host_metrics (env : ZEnv) (host_name : String) (days_back : Nat)
    (tz : TZModel) (nowDay : Int) (nowMin : Nat) : Except String (List Row) :=
  match get_host_id env host_name with
  | Except.error e => Except.error e
  | Except.ok (host_id, _host_real_name) =>
    let keys := resolvedKeys (enabledItems env host_id)
    let day_ranges := get_timestamp_ekb2timestamp tz nowDay nowMin days_back
    let items := resolvedItems env host_id keys
    if items.isEmpty then Except.ok []
    else Except.ok (items.flatMap (itemRows env day_ranges host_name))

/-- The host loop of `main`: extend the accumulated rows host by host;
an exception from any host aborts the whole loop. -/
def collectAll (env : ZEnv) (days_back : Nat) (tz : TZModel) (nowDay : Int)
    (nowMin : Nat) : List String → List Row → Except String (List Row)
  | [], acc => Except.ok acc
  | host_name :: rest, acc =>
    match collect_host_metrics env host_name days_back tz nowDay nowMin with
    | Except.error e => Except.error e
    | Except.ok rows => collectAll env days_back tz nowDay nowMin rest (acc ++ rows)

/-- What the report-writing phase of `main` does, as observable effects:
whether `os.makedirs` was called, and the header and data rows written
(the spreadsheet collaborator writes whatever table it is given,
including a header-only one).  `has_output_dir` says whether
`os.path.dirname(output_path)` is non-empty, `output_dir_exists`
whether that directory already exists. -/
structure WriteOutcome where
  makedirs_called : Bool
  header : List String
  data_rows : List Row
deriving DecidableEq

/-- The write phase of `main`: only the non-empty branch checks and
creates the missing output directory; the empty branch writes a
header-only table directly. -/
def writeReport (has_output_dir output_dir_exists : Bool) (all_metrics : List Row) :
    WriteOutcome :=
  if all_metrics.isEmpty then
    { makedirs_called := false, header := DATA_COLUMNS, data_rows := [] }
  else
    { makedirs_called := has_output_dir && !output_dir_exists,
      header := DATA_COLUMNS, data_rows := all_metrics }

/-- The observable result of `main`: `exit_json` with the written
artifact, the row list and the success message, or `fail_json` with a
message. -/
inductive MainResult where
  | exited (artifact : WriteOutcome) (metrics : List Row) (msg : String)
  | failed (msg : String)
deriving DecidableEq

/-- `main` from the source (after parameter parsing and connection):
collect all hosts inside the `try`, write the report, and exit; any
exception becomes `fail_json` with a wrapped message. -/
def mainRun (env : ZEnv) (host_names : List String) (days_back : Nat)
    (tz : TZModel) (nowDay : Int) (nowMin : Nat)
    (has_output_dir output_dir_exists : Bool) : MainResult :=
  match collectAll env days_back tz nowDay nowMin host_names [] with
  | Except.error e => MainResult.failed ("Error collecting metrics: " ++ e)
  | Except.ok all_metrics =>
    MainResult.exited (writeReport has_output_dir output_dir_exists all_metrics)
      all_metrics
      ("Successfully collected metrics for " ++ toString host_names.length ++ " hosts")

/-- The concrete windows, host, item and backend used by the concrete
runs below: one host "srv" with one enabled CPU item whose history
always returns two samples, and a fixed-offset (+05:00) timezone
model. -/
def sampleItem : Item :=
  { itemid := 7, name := "CPU utilization", key := "system.cpu.util[,user]", status := 0 }

/-- A backend with the single host "srv" carrying `sampleItem` and a
two-sample history table. -/
def sampleEnv : ZEnv :=
  { hosts := fun n => if n = "srv" then some (1, "SRV") else none,
    allItems := fun h => if h = 1 then [sampleItem] else [],
    history := fun _ _ _ _ => [{ clock := 1, value := 5 }, { clock := 0, value := 7 }] }

/-- A one-window list for exercising the aggregator directly. -/
def sampleWs : List Window := [{ date := 20000, time_from := 100, time_till := 200 }]

/-- A fixed-offset (+05:00) timezone model, the Yekaterinburg standard
offset. -/
def ekbFixed : TZModel :=
  { toUtc := fun d m => d * 86400 + (m : Int) * 60 - 18000,
    fromUtc := fun t => ((t + 18000) / 86400, ((t + 18000) % 86400 / 60).toNat) }

/-- A row with blank fields, for exercising the write phase. -/
def blankRow : Row :=
  { server := "", type := "", unit := "", min := 0, avg := 0, max := 0 }

/-- A backend whose single host "srv" has no items at all, so that
collection succeeds with zero rows. -/
def noItemsEnv : ZEnv :=
  { hosts := fun n => if n = "srv" then some (1, "SRV") else none,
    allItems := fun _ => [],
    history := fun _ _ _ _ => [] }

/-- A backend with no hosts at all. -/
def ghostEnv : ZEnv :=
  { hosts := fun _ => none, allItems := fun _ => [], history := fun _ _ _ _ => [] }

/-- An item whose display name matches both the Bits pattern and the
utilization pattern, used to separate the two classification branches. -/
def overlapItem : Item :=
  { itemid := 9, name := "Bits received Disk utilization", key := "net.if.in[eth0]",
    status := 0 }

/-- A backend whose single host "srv" carries `overlapItem` with a
two-sample history. -/
def overlapEnv : ZEnv :=
  { hosts := fun n => if n = "srv" then some (1, "SRV") else none,
    allItems := fun h => if h = 1 then [overlapItem] else [],
    history := fun _ _ _ _ => [{ clock := 1, value := 5 }, { clock := 0, value := 7 }] }

/-- An item whose key contains two template substrings ("net.if.in" and
"net.if.out"), so the key-matching loop appends it twice. -/
def dupItem : Item :=
  { itemid := 11, name := "Bits received on eth0", key := "net.if.in;net.if.out",
    status := 0 }

/-- A backend whose single host "srv" carries `dupItem` with a
two-sample history. -/
def dupEnv : ZEnv :=
  { hosts := fun n => if n = "srv" then some (1, "SRV") else none,
    allItems := fun h => if h = 1 then [dupItem] else [],
    history := fun _ _ _ _ => [{ clock := 1, value := 5 }, { clock := 0, value := 7 }] }

/-
Helper lemmas about the aggregation primitives.
-/

/-- `listMin` of a non-empty list is `List.min?`. -/
theorem listMin_eq_min? (x : ℚ) (xs : List ℚ) : (x :: xs).min? = some (listMin (x :: xs)) :=
  rfl

/-- `listMax` of a non-empty list is `List.max?`. -/
theorem listMax_eq_max? (x : ℚ) (xs : List ℚ) : (x :: xs).max? = some (listMax (x :: xs)) :=
  rfl

instance : Std.Antisymm (fun x1 x2 : ℚ => x1 ≤ x2) :=
  ⟨fun h₁ h₂ => le_antisymm h₁ h₂⟩

/-- `listMin` of a non-empty list is its least element. -/
theorem listMin_spec {l : List ℚ} (h : l ≠ []) :
    listMin l ∈ l ∧ ∀ b ∈ l, listMin l ≤ b := by
  cases l with
  | nil => exact absurd rfl h
  | cons x xs =>
    exact (List.min?_eq_some_iff (fun a => le_refl a) (fun a b => min_choice a b)
      (fun a b c => le_min_iff)).1 (listMin_eq_min? x xs)

/-- `listMax` of a non-empty list is its greatest element. -/
theorem listMax_spec {l : List ℚ} (h : l ≠ []) :
    listMax l ∈ l ∧ ∀ b ∈ l, b ≤ listMax l := by
  cases l with
  | nil => exact absurd rfl h
  | cons x xs =>
    exact (List.max?_eq_some_iff (fun a => le_refl a) (fun a b => max_choice a b)
      (fun a b c => max_le_iff)).1 (listMax_eq_max? x xs)

/-- `listMin` is invariant under permutation of a non-empty list. -/
theorem listMin_perm {l₁ l₂ : List ℚ} (hp : l₁.Perm l₂) (h : l₁ ≠ []) :
    listMin l₁ = listMin l₂ := by
  have h₂ : l₂ ≠ [] := by
    intro e
    exact h (List.Perm.eq_nil (e ▸ hp))
  obtain ⟨hm₁, hle₁⟩ := listMin_spec h
  obtain ⟨hm₂, hle₂⟩ := listMin_spec h₂
  exact le_antisymm (hle₁ _ (hp.mem_iff.mpr hm₂)) (hle₂ _ (hp.mem_iff.mp hm₁))

/-- `listMax` is invariant under permutation of a non-empty list. -/
theorem listMax_perm {l₁ l₂ : List ℚ} (hp : l₁.Perm l₂) (h : l₁ ≠ []) :
    listMax l₁ = listMax l₂ := by
  have h₂ : l₂ ≠ [] := by
    intro e
    exact h (List.Perm.eq_nil (e ▸ hp))
  obtain ⟨hm₁, hle₁⟩ := listMax_spec h
  obtain ⟨hm₂, hle₂⟩ := listMax_spec h₂
  exact le_antisymm (hle₂ _ (hp.mem_iff.mp hm₁)) (hle₁ _ (hp.mem_iff.mpr hm₂))

/-- C6: for a fixed multiset of at least 2 raw sample values, the
computed min, avg and max — and hence the aggregate record built from
them — are identical for every permutation of the input list. -/
theorem aggregation_order_independent (l₁ l₂ : List ℚ) (hp : l₁.Perm l₂)
    (hlen : 2 ≤ l₁.length) :
    listMin l₁ = listMin l₂ ∧ listAvg l₁ = listAvg l₂ ∧ listMax l₁ = listMax l₂ ∧
    aggOfValues l₁ = aggOfValues l₂ := by
  have hne : l₁ ≠ [] := by
    intro e
    rw [e] at hlen
    simp at hlen
  have hmin := listMin_perm hp hne
  have hmax := listMax_perm hp hne
  have havg : listAvg l₁ = listAvg l₂ := by
    unfold listAvg
    rw [hp.sum_eq, hp.length_eq]
  refine ⟨hmin, havg, hmax, ?_⟩
  unfold aggOfValues
  rw [hmin, havg, hmax, hp.length_eq]

/-- Witness for C6 at a concrete permuted pair of sample lists. -/
theorem aggregation_order_independent_witness :
    aggOfValues [(3 : ℚ), 1, 2] = aggOfValues [2, 3, 1] :=
  (aggregation_order_independent [3, 1, 2] [2, 3, 1] (by decide) (by decide)).2.2.2

/-- C7: the history storage class passed to every `history.get` call
depends only on the item key — keys containing "net.if." are queried
with storage class 3, every other key with storage class 0, and the two
classes differ. -/
theorem history_storage_class_by_key :
    (∀ it₁ it₂ : Item, it₁.key = it₂.key → historyType it₁.key = historyType it₂.key) ∧
    (∀ it : Item, strContains it.key "net.if." = true → historyType it.key = 3) ∧
    (∀ it : Item, strContains it.key "net.if." = false → historyType it.key = 0) ∧
    (3 : Nat) ≠ 0 ∧
    ∀ (env : ZEnv) (it : Item) (w : Window),
      dayHistory env it w =
        env.history it.itemid w.time_from w.time_till (historyType it.key) := by
  refine ⟨fun it₁ it₂ h => by rw [h], fun it h => by simp [historyType, h],
    fun it h => by simp [historyType, h], by decide, fun env it w => rfl⟩

/-- Witness for C7 at concrete network and CPU item keys. -/
theorem history_storage_class_by_key_witness :
    historyType "net.if.in[eth0]" = 3 ∧ historyType "system.cpu.util" = 0 :=
  ⟨history_storage_class_by_key.2.1 ⟨1, "Bits received", "net.if.in[eth0]", 0⟩ (by decide),
   history_storage_class_by_key.2.2.1 ⟨2, "CPU utilization", "system.cpu.util", 0⟩ (by decide)⟩

/-- The fixed-offset model converts back and forth exactly. -/
theorem ekbFixed_roundTrip (m : Nat) (hm : m < 1440) (d : Int) :
    ekbFixed.fromUtc (ekbFixed.toUtc d m) = (d, m) := by
  unfold ekbFixed
  simp only [Prod.mk.injEq]
  constructor
  · omega
  · omega

/-- C4: a metric whose total number of raw samples across all windows is
0 or 1 contributes no row; one with at least 2 (in particular exactly 2)
contributes exactly one row.  The last conjunct ties the per-item rows
to the table `collect_host_metrics` returns. -/
theorem sample_count_gating (env : ZEnv) (ws : List Window) (host_vname : String)
    (it : Item) :
    (itemRows env ws host_vname it = [] ↔
      (list_of_history_for_total env it ws).length ≤ 1) ∧
    (2 ≤ (list_of_history_for_total env it ws).length →
      (itemRows env ws host_vname it).length = 1) ∧
    (∀ (host_name host_real : String) (host_id days_back : Nat) (tz : TZModel)
        (nowDay : Int) (nowMin : Nat),
      env.hosts host_name = some (host_id, host_real) →
      collect_host_metrics env host_name days_back tz nowDay nowMin =
        Except.ok
          ((resolvedItems env host_id (resolvedKeys (enabledItems env host_id))).flatMap
            (itemRows env (get_timestamp_ekb2timestamp tz nowDay nowMin days_back)
              host_name))) := by
  have hlen : (totalValues env it ws).length =
      (list_of_history_for_total env it ws).length := by
    simp [totalValues]
  refine ⟨?_, ?_, ?_⟩
  · by_cases h : 1 < (totalValues env it ws).length
    · constructor
      · intro hrow
        simp [itemRows, list_of_total, h] at hrow
      · intro hle
        omega
    · constructor
      · intro _
        omega
      · intro _
        simp [itemRows, list_of_total, h]
  · intro h2
    have h : 1 < (totalValues env it ws).length := by omega
    simp [itemRows, list_of_total, h]
  · intro host_name host_real host_id days_back tz nowDay nowMin hh
    unfold collect_host_metrics get_host_id
    rw [hh]
    dsimp only
    by_cases hI : (resolvedItems env host_id (resolvedKeys (enabledItems env host_id))).isEmpty
    · rw [if_pos hI, List.isEmpty_iff.mp hI]
      rfl
    · rw [if_neg hI]

/-- Witness for C4: with exactly two total samples the item yields
exactly one row, and the pipeline equation holds on the concrete
backend. -/
theorem sample_count_gating_witness :
    (itemRows sampleEnv sampleWs "srv" sampleItem).length = 1 ∧
    collect_host_metrics sampleEnv "srv" 0 ekbFixed 20000 600 =
      Except.ok
        ((resolvedItems sampleEnv 1 (resolvedKeys (enabledItems sampleEnv 1))).flatMap
          (itemRows sampleEnv (get_timestamp_ekb2timestamp ekbFixed 20000 600 0) "srv")) :=
  ⟨(sample_count_gating sampleEnv sampleWs "srv" sampleItem).2.1 (by decide),
   (sample_count_gating sampleEnv sampleWs "srv" sampleItem).2.2 "srv" "SRV" 1 0 ekbFixed
     20000 600 (by decide)⟩

/-- C8: every daily aggregate and every total aggregate is computed from
at least 2 samples, and its stored min/avg/max are the exact sample
minimum, mean and maximum rounded to one decimal place (`round1` indeed
rounds to one decimal: its result is an integer number of tenths within
1/20 of the input). -/
theorem aggregate_rounding (env : ZEnv) (it : Item) (w : Window) (ws : List Window) :
    (∀ a, dayAgg env it w = some a →
      2 ≤ (dayValues env it w).length ∧
      a.min = round1 (listMin (dayValues env it w)) ∧
      a.avg = round1 (listAvg (dayValues env it w)) ∧
      a.max = round1 (listMax (dayValues env it w))) ∧
    (∀ a ∈ list_of_total env it ws,
      2 ≤ (totalValues env it ws).length ∧
      a.min = round1 (listMin (totalValues env it ws)) ∧
      a.avg = round1 (listAvg (totalValues env it ws)) ∧
      a.max = round1 (listMax (totalValues env it ws))) ∧
    (∀ x : ℚ, ∃ z : ℤ, round1 x = (z : ℚ) / 10 ∧ |x - round1 x| ≤ 1 / 20) := by
  refine ⟨?_, ?_, ?_⟩
  · intro a ha
    unfold dayAgg at ha
    by_cases h : 1 < (dayValues env it w).length
    · rw [if_pos h] at ha
      obtain rfl := (Option.some.injEq _ _).mp ha.symm
      exact ⟨by omega, rfl, rfl, rfl⟩
    · rw [if_neg h] at ha
      cases ha
  · intro a ha
    unfold list_of_total at ha
    by_cases h : 1 < (totalValues env it ws).length
    · rw [if_pos h] at ha
      obtain rfl := List.mem_singleton.mp ha
      exact ⟨by omega, rfl, rfl, rfl⟩
    · rw [if_neg h] at ha
      cases ha
  · intro x
    refine ⟨round (10 * x), rfl, ?_⟩
    have hr : |10 * x - ((round (10 * x) : ℤ) : ℚ)| ≤ 1 / 2 := abs_sub_round (10 * x)
    have e : x - round1 x = (10 * x - ((round (10 * x) : ℤ) : ℚ)) / 10 := by
      unfold round1
      ring
    rw [e, abs_div, abs_of_nonneg (show (0 : ℚ) ≤ 10 by norm_num)]
    linarith

/-- Witness for C8 on the concrete backend: the aggregates of the two
samples 5 and 7 store exactly 5 / 6 / 7, and `round1` at 3/2 is an
integer number of tenths within 1/20. -/
theorem aggregate_rounding_witness :
    2 ≤ (dayValues sampleEnv sampleItem
      { date := 20000, time_from := 100, time_till := 200 }).length ∧
    (6 : ℚ) = round1 (listAvg (dayValues sampleEnv sampleItem
      { date := 20000, time_from := 100, time_till := 200 })) ∧
    (5 : ℚ) = round1 (listMin (totalValues sampleEnv sampleItem sampleWs)) ∧
    ∃ z : ℤ, round1 (3 / 2) = (z : ℚ) / 10 ∧ |(3 / 2 : ℚ) - round1 (3 / 2)| ≤ 1 / 20 := by
  have h := aggregate_rounding sampleEnv sampleItem
    { date := 20000, time_from := 100, time_till := 200 } sampleWs
  have hsome : dayAgg sampleEnv sampleItem
      { date := 20000, time_from := 100, time_till := 200 } =
      some { date := 20000, avg := 6, min := 5, max := 7, history_count := 2 } := by
    norm_num [dayAgg, dayValues, dayHistory, sampleEnv, sampleItem, round1, round_eq,
      listMin, listMax, listAvg, min_def, max_def]
  have hmem : ({ avg := 6, min := 5, max := 7, history_count := 2 } : Agg) ∈
      list_of_total sampleEnv sampleItem sampleWs := by
    norm_num [list_of_total, totalValues, list_of_history_for_total, dayHistory, sampleEnv,
      sampleItem, sampleWs, aggOfValues, round1, round_eq, listMin, listMax, listAvg,
      min_def, max_def]
  obtain ⟨hd, ht, hround⟩ := h
  obtain ⟨hlen1, hmin1, havg1, hmax1⟩ := hd _ hsome
  obtain ⟨hlen2, hmin2, havg2, hmax2⟩ := ht _ hmem
  exact ⟨hlen1, havg1, hmin2, hround (3 / 2)⟩

/-- C3: for any timezone model whose conversions invert each other at
local 09:00 (minute 540) and 18:00 (minute 1080) — i.e. any valid
timezone conversion — and any non-negative days-back value, the
generator produces exactly `days_back + 1` windows, strictly ordered by
descending calendar date, and converting each window's UTC bounds back
to the timezone yields local 09:00 and 18:00 on the window's date. -/
theorem window_generator_windows (tz : TZModel) (nowDay : Int) (nowMin : Nat)
    (days_back : Nat)
    (hrt9 : ∀ d : Int, tz.fromUtc (tz.toUtc d 540) = (d, 540))
    (hrt18 : ∀ d : Int, tz.fromUtc (tz.toUtc d 1080) = (d, 1080)) :
    (get_timestamp_ekb2timestamp tz nowDay nowMin days_back).length = days_back + 1 ∧
    (∀ (i j : Nat) (hi : i < (get_timestamp_ekb2timestamp tz nowDay nowMin days_back).length)
        (hj : j < (get_timestamp_ekb2timestamp tz nowDay nowMin days_back).length),
      i < j →
      ((get_timestamp_ekb2timestamp tz nowDay nowMin days_back).get ⟨j, hj⟩).date <
        ((get_timestamp_ekb2timestamp tz nowDay nowMin days_back).get ⟨i, hi⟩).date) ∧
    (∀ w ∈ get_timestamp_ekb2timestamp tz nowDay nowMin days_back,
      tz.fromUtc w.time_from = (w.date, 540) ∧ tz.fromUtc w.time_till = (w.date, 1080)) := by
  have hlen : (get_timestamp_ekb2timestamp tz nowDay nowMin days_back).length =
      days_back + 1 := by
    dsimp only [get_timestamp_ekb2timestamp]
    rw [List.length_map, List.length_range]
  refine ⟨hlen, ?_, ?_⟩
  · intro i j hi hj hij
    have hdate : ∀ (k : Nat) (hk : k < (get_timestamp_ekb2timestamp tz nowDay nowMin
        days_back).length),
        ((get_timestamp_ekb2timestamp tz nowDay nowMin days_back).get ⟨k, hk⟩).date =
          (if nowMin < 540 then nowDay - 1 else nowDay) - k := by
      intro k hk
      dsimp only [get_timestamp_ekb2timestamp] at hk ⊢
      rw [List.get_eq_getElem, List.getElem_map, List.getElem_range]
    rw [hdate i hi, hdate j hj]
    have hc : (i : Int) < (j : Int) := by exact_mod_cast hij
    omega
  · intro w hw
    simp only [get_timestamp_ekb2timestamp, List.mem_map, List.mem_range] at hw
    obtain ⟨i, hi, rfl⟩ := hw
    exact ⟨hrt9 _, hrt18 _⟩

/-- Witness for C3 with the fixed-offset timezone model and two days
back. -/
theorem window_generator_windows_witness :
    (get_timestamp_ekb2timestamp ekbFixed 20000 600 2).length = 2 + 1 :=
  (window_generator_windows ekbFixed 20000 600 2
    (fun d => ekbFixed_roundTrip 540 (by norm_num) d)
    (fun d => ekbFixed_roundTrip 1080 (by norm_num) d)).1

/-- C2 (amended): the write phase creates missing parent directories
only when the collected row list is non-empty; with an empty row list it
never calls `os.makedirs`, whatever the state of the output directory. -/
theorem makedirs_only_when_nonempty (has_output_dir output_dir_exists : Bool)
    (all_metrics : List Row) :
    (all_metrics ≠ [] →
      (writeReport has_output_dir output_dir_exists all_metrics).makedirs_called =
        (has_output_dir && !output_dir_exists)) ∧
    (writeReport has_output_dir output_dir_exists []).makedirs_called = false := by
  constructor
  · intro h
    cases all_metrics with
    | nil => exact absurd rfl h
    | cons a l => rfl
  · rfl

/-- Witness for C2's amended statement: with a missing output directory,
a one-row table triggers directory creation and an empty table does
not. -/
theorem makedirs_only_when_nonempty_witness :
    (writeReport true false [blankRow]).makedirs_called = (true && !false) ∧
    (writeReport true false []).makedirs_called = false :=
  ⟨(makedirs_only_when_nonempty true false [blankRow]).1 (by simp),
   (makedirs_only_when_nonempty true false [blankRow]).2⟩

/-- C2 counterexample: a full invocation whose collected row list is
empty and whose output directory is missing (`has_output_dir = true`,
`output_dir_exists = false`) writes the artifact without ever calling
`os.makedirs` — the claim's "regardless of whether the collected row
list is empty" fails, because only the non-empty branch of `main`
creates directories. -/
theorem makedirs_missing_on_empty_cex :
    mainRun noItemsEnv ["srv"] 0 ekbFixed 20000 600 true false =
      MainResult.exited
        { makedirs_called := false, header := DATA_COLUMNS, data_rows := [] } []
        "Successfully collected metrics for 1 hosts" := by
  rfl

/-- C5: whenever collection succeeds with zero rows (no host produced
any metric row), the run still exits successfully and the written
artifact holds exactly the fixed header columns and zero data rows. -/
theorem empty_result_header_only (env : ZEnv) (host_names : List String)
    (days_back : Nat) (tz : TZModel) (nowDay : Int) (nowMin : Nat)
    (has_output_dir output_dir_exists : Bool)
    (hempty : collectAll env days_back tz nowDay nowMin host_names [] = Except.ok []) :
    mainRun env host_names days_back tz nowDay nowMin has_output_dir output_dir_exists =
      MainResult.exited
        { makedirs_called := false, header := DATA_COLUMNS, data_rows := [] } []
        ("Successfully collected metrics for " ++ toString host_names.length ++
          " hosts") := by
  unfold mainRun
  rw [hempty]
  rfl

/-- Witness for C5: a host with no items yields an empty table and a
header-only artifact. -/
theorem empty_result_header_only_witness :
    mainRun noItemsEnv ["srv"] 0 ekbFixed 20000 600 false true =
      MainResult.exited
        { makedirs_called := false, header := DATA_COLUMNS, data_rows := [] } []
        ("Successfully collected metrics for " ++ toString (["srv"] : List String).length ++
          " hosts") :=
  empty_result_header_only noItemsEnv ["srv"] 0 ekbFixed 20000 600 false true rfl

/-- If a host resolves, `collect_host_metrics` cannot raise. -/
theorem collect_ok_of_resolved (env : ZEnv) (host_name : String) (days_back : Nat)
    (tz : TZModel) (nowDay : Int) (nowMin : Nat) (p : Nat × String)
    (hhost : env.hosts host_name = some p) :
    ∃ rows, collect_host_metrics env host_name days_back tz nowDay nowMin =
      Except.ok rows := by
  obtain ⟨host_id, host_real⟩ := p
  unfold collect_host_metrics get_host_id
  rw [hhost]
  dsimp only
  by_cases hI : (resolvedItems env host_id (resolvedKeys (enabledItems env host_id))).isEmpty
  · rw [if_pos hI]
    exact ⟨[], rfl⟩
  · rw [if_neg hI]
    exact ⟨_, rfl⟩

/-- The host loop aborts with the host-not-found message of the first
unresolvable host, whatever rows were already accumulated. -/
theorem collectAll_error_of_missing (env : ZEnv) (days_back : Nat) (tz : TZModel)
    (nowDay : Int) (nowMin : Nat) (hosts : List String)
    (h : ∃ hn ∈ hosts, env.hosts hn = none) :
    ∃ hn ∈ hosts, env.hosts hn = none ∧ ∀ acc,
      collectAll env days_back tz nowDay nowMin hosts acc =
        Except.error ("Хост '" ++ hn ++ "' не найден") := by
  induction hosts with
  | nil =>
    obtain ⟨hn, hmem, _⟩ := h
    cases hmem
  | cons a rest ih =>
    cases ha : env.hosts a with
    | none =>
      refine ⟨a, List.mem_cons_self a rest, ha, fun acc => ?_⟩
      unfold collectAll collect_host_metrics get_host_id
      rw [ha]
    | some p =>
      obtain ⟨hn, hmem, hnone⟩ := h
      have hrest : ∃ hn ∈ rest, env.hosts hn = none := by
        rcases List.mem_cons.mp hmem with rfl | hr
        · rw [ha] at hnone
          cases hnone
        · exact ⟨hn, hr, hnone⟩
      obtain ⟨hn', hmem', hnone', hrun⟩ := ih hrest
      refine ⟨hn', List.mem_cons_of_mem a hmem', hnone', fun acc => ?_⟩
      obtain ⟨rows, hrows⟩ := collect_ok_of_resolved env a days_back tz nowDay nowMin p ha
      unfold collectAll
      rw [hrows]
      exact hrun (acc ++ rows)

/-- C9: if any requested host name cannot be resolved, the whole run
fails with the human-readable host-not-found message (wrapped by
`main`'s error handler) and reports no rows at all: the result is a
failure carrying only the message, never an `exited` result with
partial rows. -/
theorem host_not_found_aborts (env : ZEnv) (host_names : List String)
    (days_back : Nat) (tz : TZModel) (nowDay : Int) (nowMin : Nat)
    (has_output_dir output_dir_exists : Bool)
    (h : ∃ hn ∈ host_names, env.hosts hn = none) :
    ∃ hn ∈ host_names, env.hosts hn = none ∧
      mainRun env host_names days_back tz nowDay nowMin has_output_dir
          output_dir_exists =
        MainResult.failed
          ("Error collecting metrics: " ++ ("Хост '" ++ hn ++ "' не найден")) ∧
      ∀ (artifact : WriteOutcome) (metrics : List Row) (msg : String),
        mainRun env host_names days_back tz nowDay nowMin has_output_dir
          output_dir_exists ≠ MainResult.exited artifact metrics msg := by
  obtain ⟨hn, hmem, hnone, hrun⟩ :=
    collectAll_error_of_missing env days_back tz nowDay nowMin host_names h
  have hmain : mainRun env host_names days_back tz nowDay nowMin has_output_dir
      output_dir_exists =
      MainResult.failed
        ("Error collecting metrics: " ++ ("Хост '" ++ hn ++ "' не найден")) := by
    unfold mainRun
    rw [hrun []]
  refine ⟨hn, hmem, hnone, hmain, fun artifact metrics msg hc => ?_⟩
  rw [hmain] at hc
  cases hc

/-- Witness for C9: a single unresolvable host makes the whole run fail
with the wrapped message. -/
theorem host_not_found_aborts_witness :
    ∃ hn ∈ ["ghost"], ghostEnv.hosts hn = none ∧
      mainRun ghostEnv ["ghost"] 0 ekbFixed 20000 600 true true =
        MainResult.failed
          ("Error collecting metrics: " ++ ("Хост '" ++ hn ++ "' не найден")) ∧
      ∀ (artifact : WriteOutcome) (metrics : List Row) (msg : String),
        mainRun ghostEnv ["ghost"] 0 ekbFixed 20000 600 true true ≠
          MainResult.exited artifact metrics msg :=
  host_not_found_aborts ghostEnv ["ghost"] 0 ekbFixed 20000 600 true true
    ⟨"ghost", List.mem_cons_self "ghost" [], rfl⟩

/-- C1 (amended): every emitted row carries its item's display name;
rows whose name matches the Bits pattern get unit "Mbps" and the total
aggregate's min/avg/max divided by exactly 1,000,000 — this branch wins
even when the name also matches the utilization pattern, because the
source checks the Bits pattern first; rows matching the utilization
pattern but not the Bits pattern get unit "%" with unconverted values;
rows matching neither get unit "count" with unconverted values. -/
theorem units_classification (env : ZEnv) (ws : List Window) (host_vname : String)
    (it : Item) (row : Row) (hrow : row ∈ itemRows env ws host_vname it) :
    row.type = it.name ∧
    ∃ total ∈ list_of_total env it ws,
      (matchesBits it.name = true →
        row.unit = "Mbps" ∧ row.min = total.min / 1000000 ∧
        row.avg = total.avg / 1000000 ∧ row.max = total.max / 1000000) ∧
      (matchesBits it.name = false → matchesUtil it.name = true →
        row.unit = "%" ∧ row.min = total.min ∧ row.avg = total.avg ∧
        row.max = total.max) ∧
      (matchesBits it.name = false → matchesUtil it.name = false →
        row.unit = "count" ∧ row.min = total.min ∧ row.avg = total.avg ∧
        row.max = total.max) := by
  unfold itemRows at hrow
  cases htot : list_of_total env it ws with
  | nil =>
    rw [htot] at hrow
    cases hrow
  | cons total rest =>
    rw [htot] at hrow
    obtain rfl := List.mem_singleton.mp hrow
    refine ⟨rfl, total, htot ▸ List.mem_cons_self total rest, ?_, ?_, ?_⟩
    · intro hb
      simp [unitOf, convertVal, bps_to_mbps, hb]
    · intro hb hu
      simp [unitOf, convertVal, hb, hu]
    · intro hb hu
      simp [unitOf, convertVal, hb, hu]

/-- Witness for C1's amended statement: the emitted CPU row on the
concrete backend carries unit "%". -/
theorem units_classification_witness :
    ({ server := "srv", type := "CPU utilization", unit := "%",
       min := 5, avg := 6, max := 7 } : Row) ∈
      itemRows sampleEnv sampleWs "srv" sampleItem ∧
    ({ server := "srv", type := "CPU utilization", unit := "%",
       min := 5, avg := 6, max := 7 } : Row).unit = "%" := by
  have hvals : totalValues sampleEnv sampleItem sampleWs = [5, 7] := rfl
  have htot : list_of_total sampleEnv sampleItem sampleWs =
      [{ avg := 6, min := 5, max := 7, history_count := 2 }] := by
    unfold list_of_total
    rw [hvals]
    norm_num [aggOfValues, round1, round_eq, listAvg, listMin, listMax, min_def, max_def]
  have hrow : ({ server := "srv", type := "CPU utilization", unit := "%",
                 min := 5, avg := 6, max := 7 } : Row) ∈
      itemRows sampleEnv sampleWs "srv" sampleItem := by
    unfold itemRows
    rw [htot]
    have hb : matchesBits "CPU utilization" = false := by decide
    have hu : matchesUtil "CPU utilization" = true := by decide
    simp [unitOf, convertVal, hb, hu, sampleItem]
  obtain ⟨hty, total, hmem, hB, hU, hC⟩ :=
    units_classification sampleEnv sampleWs "srv" sampleItem _ hrow
  exact ⟨hrow, (hU (by decide) (by decide)).1⟩

/-- C1 counterexample: the item named "Bits received Disk utilization"
matches the claim's utilization pattern, yet the row the pipeline emits
for it has unit "Mbps" (not "%") and values divided by 1,000,000
(1/200000 instead of the raw aggregate 5), because the source checks
the Bits pattern first.  This refutes the claim's unconditional "%"
bullet. -/
theorem units_classification_cex :
    matchesUtil "Bits received Disk utilization" = true ∧
    ("Mbps" : String) ≠ "%" ∧
    collect_host_metrics overlapEnv "srv" 0 ekbFixed 20000 600 =
      Except.ok [{ server := "srv", type := "Bits received Disk utilization",
                   unit := "Mbps", min := 1 / 200000, avg := 3 / 500000,
                   max := 7 / 1000000 }] ∧
    (1 / 200000 : ℚ) ≠ 5 := by
  refine ⟨by decide, by decide, ?_, by norm_num⟩
  have hvals : totalValues overlapEnv overlapItem
      (get_timestamp_ekb2timestamp ekbFixed 20000 600 0) = [5, 7] := rfl
  have htot : list_of_total overlapEnv overlapItem
      (get_timestamp_ekb2timestamp ekbFixed 20000 600 0) =
      [{ avg := 6, min := 5, max := 7, history_count := 2 }] := by
    unfold list_of_total
    rw [hvals]
    norm_num [aggOfValues, round1, round_eq, listAvg, listMin, listMax, min_def, max_def]
  have hrows : itemRows overlapEnv (get_timestamp_ekb2timestamp ekbFixed 20000 600 0)
      "srv" overlapItem =
      [{ server := "srv", type := "Bits received Disk utilization", unit := "Mbps",
         min := 1 / 200000, avg := 3 / 500000, max := 7 / 1000000 }] := by
    unfold itemRows
    rw [htot]
    have hb : matchesBits "Bits received Disk utilization" = true := by decide
    norm_num [unitOf, convertVal, overlapItem, hb, bps_to_mbps]
  have hres : resolvedItems overlapEnv 1 (resolvedKeys (enabledItems overlapEnv 1)) =
      [overlapItem] := by decide
  unfold collect_host_metrics get_host_id
  rw [show overlapEnv.hosts "srv" = some (1, "SRV") from rfl]
  dsimp only
  rw [hres]
  simp [hrows]

/-- `filterMap` of a lookup that hits `some b` on `a`, over a replicated
`a`, replicates `b`. -/
theorem filterMap_replicate_some {α β : Type} (f : α → Option β) (a : α) (b : β)
    (h : f a = some b) : ∀ n, (List.replicate n a).filterMap f = List.replicate n b := by
  intro n
  induction n with
  | zero => rfl
  | succ k ih => simp [List.replicate_succ, h, ih]

/-- `flatMap` of a singleton-valued function over a replicated input
replicates the singleton's element. -/
theorem flatMap_replicate_singleton {α β : Type} (f : α → List β) (a : α) (b : β)
    (h : f a = [b]) : ∀ n, (List.replicate n a).flatMap f = List.replicate n b := by
  intro n
  induction n with
  | zero => rfl
  | succ k ih => simp [List.replicate_succ, h, ih]

/-- The key-matching loop over a single enabled item appends the item's
key once per matching template substring. -/
theorem resolvedKeys_singleton (it : Item) :
    resolvedKeys [it] =
      List.replicate (KEYS_TEMPLATE.filter (fun t => strContains it.key t)).length
        it.key := by
  unfold resolvedKeys
  simp [List.map_const']

/-- C10: an enabled item whose key contains k template substrings is
appended k times by the resolver, re-queried per appended key, and —
when its total aggregate exists — contributes k identical rows to the
output table.  (`host_real` is the backend's own name for the host;
`hlookup` states that re-querying the item's key returns the item
itself first, as it does when the key search is unambiguous.) -/
theorem duplicate_template_rows (env : ZEnv) (host_name host_real : String)
    (host_id days_back : Nat) (tz : TZModel) (nowDay : Int) (nowMin : Nat) (it : Item)
    (hhost : env.hosts host_name = some (host_id, host_real))
    (henabled : enabledItems env host_id = [it])
    (hlookup : (get_item env host_id it.key).head? = some it)
    (hsamples : 2 ≤ (list_of_history_for_total env it
        (get_timestamp_ekb2timestamp tz nowDay nowMin days_back)).length) :
    resolvedItems env host_id (resolvedKeys (enabledItems env host_id)) =
      List.replicate (KEYS_TEMPLATE.filter (fun t => strContains it.key t)).length it ∧
    ∃ row, itemRows env (get_timestamp_ekb2timestamp tz nowDay nowMin days_back)
        host_name it = [row] ∧
      collect_host_metrics env host_name days_back tz nowDay nowMin =
        Except.ok (List.replicate
          (KEYS_TEMPLATE.filter (fun t => strContains it.key t)).length row) := by
  have hitems : resolvedItems env host_id (resolvedKeys (enabledItems env host_id)) =
      List.replicate (KEYS_TEMPLATE.filter (fun t => strContains it.key t)).length it := by
    rw [henabled, resolvedKeys_singleton]
    unfold resolvedItems
    exact filterMap_replicate_some _ it.key it hlookup _
  have hlen : (totalValues env it
      (get_timestamp_ekb2timestamp tz nowDay nowMin days_back)).length =
      (list_of_history_for_total env it
        (get_timestamp_ekb2timestamp tz nowDay nowMin days_back)).length := by
    simp [totalValues]
  have h1 : 1 < (totalValues env it
      (get_timestamp_ekb2timestamp tz nowDay nowMin days_back)).length := by
    omega
  have hrow : itemRows env (get_timestamp_ekb2timestamp tz nowDay nowMin days_back)
      host_name it =
      [{ server := host_name, type := it.name, unit := unitOf it.name,
         min := convertVal it.name (aggOfValues (totalValues env it
           (get_timestamp_ekb2timestamp tz nowDay nowMin days_back))).min,
         avg := convertVal it.name (aggOfValues (totalValues env it
           (get_timestamp_ekb2timestamp tz nowDay nowMin days_back))).avg,
         max := convertVal it.name (aggOfValues (totalValues env it
           (get_timestamp_ekb2timestamp tz nowDay nowMin days_back))).max }] := by
    unfold itemRows list_of_total
    rw [if_pos h1]
  refine ⟨hitems, _, hrow, ?_⟩
  unfold collect_host_metrics get_host_id
  rw [hhost]
  dsimp only
  rw [hitems]
  cases hk : (KEYS_TEMPLATE.filter (fun t => strContains it.key t)).length with
  | zero => simp
  | succ n =>
    have hne : (List.replicate (n + 1) it).isEmpty = false := by
      simp [List.replicate_succ]
    rw [hne]
    simp only [Bool.false_eq_true, if_false]
    rw [flatMap_replicate_singleton _ it _ hrow (n + 1)]

/-- Witness for C10: `dupItem`'s key matches exactly 2 template
substrings, so the concrete run resolves it twice and returns 2
identical rows. -/
theorem duplicate_template_rows_witness :
    (KEYS_TEMPLATE.filter (fun t => strContains dupItem.key t)).length = 2 ∧
    (resolvedItems dupEnv 1 (resolvedKeys (enabledItems dupEnv 1)) =
      List.replicate (KEYS_TEMPLATE.filter (fun t => strContains dupItem.key t)).length
        dupItem ∧
    ∃ row, itemRows dupEnv (get_timestamp_ekb2timestamp ekbFixed 20000 600 0)
        "srv" dupItem = [row] ∧
      collect_host_metrics dupEnv "srv" 0 ekbFixed 20000 600 =
        Except.ok (List.replicate
          (KEYS_TEMPLATE.filter (fun t => strContains dupItem.key t)).length row)) :=
  ⟨by decide,
   duplicate_template_rows dupEnv "srv" "SRV" 1 0 ekbFixed 20000 600 dupItem rfl rfl
     (by decide) (by decide)⟩
